import Mathlib

/-!
Shallow embedding of the chrome-crawl batch crawler and WeChat article
extractor (src/scripts/batch_crawl.py and src/scripts/wechat_extract.py),
together with proofs settling the frozen specification claims.

Python strings are modelled as Lean `String` (Python `len` counts code
points, as does `String.length`); Python dict records become structures;
the filesystem is an association list from path to byte size; network
fetches are oracle functions supplied as parameters.
-/

/-! ## Generic string helpers (Python string primitives) -/

/-- Substring containment on character lists: `pat` occurs somewhere in `l`
(models Python's `pat in s`). -/
def containsSub : List Char → List Char → Bool
  | [], pat => pat.isEmpty
  | l@(_ :: t), pat => pat.isPrefixOf l || containsSub t pat

/-- Python `pat in s` on strings. -/
def strContains (s pat : String) : Bool := containsSub s.data pat.data

/-- Python `s.startswith(p)`. -/
def strIsPrefixOf (p s : String) : Bool := p.data.isPrefixOf s.data

/-- Python `s.lower()` (ASCII case folding, as in the URLs involved). -/
def strToLower (s : String) : String := String.mk (s.data.map Char.toLower)

/-- `s[n:]` by code points. -/
def strDrop (s : String) (n : Nat) : String := String.mk (s.data.drop n)

/-- The whitespace characters stripped by Python `str.strip()` (ASCII range). -/
def isPyWs (c : Char) : Bool :=
  c = ' ' || c = '\t' || c = '\n' || c = '\r' || c = '\x0b' || c = '\x0c'

/-- Python `str.strip()`. -/
def pyStrip (s : String) : String :=
  String.mk (((s.data.dropWhile isPyWs).reverse.dropWhile isPyWs).reverse)

/-- Python `f"{n:0{width}d}"` zero padding of a natural number. -/
def padZeros (width : Nat) (n : Nat) : String :=
  let s := toString n
  if s.length < width then String.mk (List.replicate (width - s.length) '0') ++ s else s

/-! ## Manifest model (batch_crawl.py)

An `ArticleRecord` models one manifest entry.  A missing or falsy
`url`/field in the JSON dict is modelled by the empty string. -/

structure ArticleRecord where
  seq : Nat
  url : String
  title : String
  status : String
  dir_name : String
  errors : List String
  author : String
  publish_time : String
deriving DecidableEq, Repr

/-- The dict comprehension
`{a["url"]: a for a in existing if a.get("url")}` followed by lookup of `u`:
iterating left to right, a later record with the same url overwrites an
earlier one, and records with a falsy url are skipped. -/
def lookupByUrl (existing : List ArticleRecord) (u : String) : Option ArticleRecord :=
  existing.foldl (fun acc a => if a.url ≠ "" ∧ a.url = u then some a else acc) none

/-- The fresh pending record appended by `build_manifest_from_urls` for a URL
not present in the existing manifest (seq is the 1-based position). -/
def freshRecord (seq : Nat) (url : String) : ArticleRecord :=
  ⟨seq, url, "", "pending", "", [], "", ""⟩

/-- One iteration of the merge loop of `build_manifest_from_urls`: `idx` is the
0-based position of `url` in the new URL list. -/
def mkEntry (existing : List ArticleRecord) (idx : Nat) (url : String) : ArticleRecord :=
  match lookupByUrl existing url with
  | some e => { e with seq := idx + 1 }
  | none => freshRecord (idx + 1) url

/-- The merge loop of `build_manifest_from_urls`, carrying the running index. -/
def buildFrom (existing : List ArticleRecord) : Nat → List String → List ArticleRecord
  | _, [] => []
  | idx, url :: rest => mkEntry existing idx url :: buildFrom existing (idx + 1) rest

/-- `build_manifest_from_urls(urls, existing)` (batch_crawl.py lines 130-157). -/
def build_manifest_from_urls (urls : List String) (existing : List ArticleRecord) :
    List ArticleRecord :=
  buildFrom existing 0 urls

/-- The work-queue filter of `cmd_crawl` (batch_crawl.py lines 286-296):
skip records with a falsy url; skip terminal-success statuses unless forced;
truncate to `limit` entries when `limit > 0` (argparse gives an `int`). -/
def toProcess (articles : List ArticleRecord) (force : Bool) (limit : Int) :
    List ArticleRecord :=
  let filtered := articles.filter fun a =>
    (a.url != "") && (force || ((a.status != "downloaded") && (a.status != "extracted")))
  if 0 < limit then filtered.take limit.toNat else filtered

/-- The reset performed by `cmd_retry` (batch_crawl.py lines 447-468): every
record with status `"failed"` becomes `"pending"` with empty errors; the
net effect on the manifest list is this map. -/
def cmd_retry_reset (articles : List ArticleRecord) : List ArticleRecord :=
  articles.map fun a =>
    if a.status = "failed" then { a with status := "pending", errors := [] } else a

/-! ## Fetch loop model (download_raw_html_cdp) -/

def PAUSE_EVERY : Nat := 200
def PAUSE_DURATION : Nat := 20
def BACKOFF_BASE : Nat := 5
def MAX_RETRIES : Nat := 3
def RATE_LIMIT_PAUSE : Nat := 60

/-- What one invocation of the CDP fetch subprocess can produce:
a nonzero exit status, a `subprocess.TimeoutExpired`, some other exception,
or a page body read from the temp file. -/
inductive CdpOutcome where
  | procFail
  | timeoutExc
  | runExc
  | page (html : String)
deriving DecidableEq

/-- The anti-crawl marker looked for in the first 3000 characters of the body:
`"环境异常" in html_text[:3000]`. -/
def ANTI_BOT_MARKER : String := "环境异常"

def antiBotPage (h : String) : Bool :=
  strContains (String.mk (h.data.take 3000)) ANTI_BOT_MARKER

/-- Whether a fetch outcome is an anti-bot interstitial page. -/
def antiOutcome : CdpOutcome → Bool
  | .page h => antiBotPage h
  | _ => false

/-- The backoff sleep performed before the next attempt:
`time.sleep(BACKOFF_BASE * (2 ** attempt))`, guarded by `attempt < MAX_RETRIES`. -/
def backoffSleep (attempt : Nat) : List Nat :=
  if attempt < MAX_RETRIES then [BACKOFF_BASE * 2 ^ attempt] else []

/-- The retry loop body of `download_raw_html_cdp` (batch_crawl.py lines
204-244).  `outcomes attempt` is what the subprocess produced on that
attempt; the second component collects the sleep durations performed.
Every branch of the Python loop (`continue` after nonzero exit, timeout or
exception with backoff; anti-crawl page with the fixed rate-limit pause;
short body with backoff) advances the `for attempt in range(...)` counter. -/
def fetchGo (outcomes : Nat → CdpOutcome) : Nat → Nat → Option String × List Nat
  | _, 0 => (none, [])
  | attempt, Nat.succ fuel =>
    match outcomes attempt with
    | .page h =>
      if antiBotPage h then
        let r := fetchGo outcomes (attempt + 1) fuel
        (r.1, RATE_LIMIT_PAUSE :: r.2)
      else if h.length < 1000 then
        let r := fetchGo outcomes (attempt + 1) fuel
        (r.1, backoffSleep attempt ++ r.2)
      else (some h, [])
    | _ =>
      let r := fetchGo outcomes (attempt + 1) fuel
      (r.1, backoffSleep attempt ++ r.2)

/-- `download_raw_html_cdp`: up to `MAX_RETRIES + 1` attempts starting at
attempt 0; returns the page body on success, `none` when attempts run out,
together with the sleeps performed. -/
def download_raw_html_cdp (outcomes : Nat → CdpOutcome) : Option String × List Nat :=
  fetchGo outcomes 0 (MAX_RETRIES + 1)

/-! ## Media pipeline model (wechat_extract.py: _img_ext, download_images) -/

def IMG_TIMEOUT : Nat := 30
def IMG_RETRY : Nat := 2
def IMG_MIN_BYTES : Nat := 100

/-- Content-Type based extension guess: the first `if` chain of `_img_ext`
(wechat_extract.py lines 186-199).  Falls through to the URL guess when no
known type matches. -/
def imgExtCT (ct : String) : Option String :=
  if strContains ct "png" then some ".png"
  else if strContains ct "gif" then some ".gif"
  else if strContains ct "webp" then some ".webp"
  else if strContains ct "svg" then some ".svg"
  else if strContains ct "jpeg" || strContains ct "jpg" then some ".jpg"
  else none

/-- `urlparse(url).path` for an http(s)-style URL: drop the scheme marker and
the authority, keep everything up to the query or fragment. -/
def urlPath (url : String) : String :=
  let rest :=
    if strIsPrefixOf "https://" url then strDrop url 8
    else if strIsPrefixOf "http://" url then strDrop url 7
    else url
  if rest = url then url
  else String.mk ((rest.data.dropWhile fun c => c ≠ '/' && c ≠ '?' && c ≠ '#').takeWhile
    fun c => c ≠ '?' && c ≠ '#')

/-- The extension candidates probed against the URL path, in source order. -/
def extCandidates : List String := [".png", ".gif", ".webp", ".svg", ".jpg", ".jpeg"]

/-- Python `\w` word characters as used by the WeChat patterns
(ASCII alphanumerics, underscore, and the CJK range the source names
explicitly). -/
def pyWordChar (c : Char) : Bool :=
  c.isAlphanum || c = '_' || (0x4e00 ≤ c.toNat && c.toNat ≤ 0x9fff)

/-- `re.search(r"wx_fmt=(\w+)", url)`: first occurrence of `wx_fmt=` followed
by at least one word character; returns the greedy word-character run. -/
def wxFmt : List Char → Option String
  | [] => none
  | l@(_ :: t) =>
    let key := "wx_fmt=".data
    if key.isPrefixOf l then
      let after := l.drop key.length
      match after.takeWhile pyWordChar with
      | [] => wxFmt t
      | run => some (String.mk run)
    else wxFmt t

/-- `_img_ext(url, content_type)` (wechat_extract.py lines 186-210):
Content-Type first, then a substring probe of the lower-cased URL path,
then the `wx_fmt` query parameter, defaulting to `.jpg`. -/
def imgExt (url : String) (content_type : String) : String :=
  match (if content_type = "" then none else imgExtCT (strToLower content_type)) with
  | some e => e
  | none =>
    let path := strToLower (urlPath url)
    match extCandidates.find? (fun e => strContains path e) with
    | some e => e
    | none =>
      match wxFmt url.data with
      | some f =>
        let fl := strToLower f
        if fl = "jpeg" then ".jpg" else "." ++ fl
      | none => ".jpg"

/-- The aggregate counters returned by `download_images`. -/
structure ImgStats where
  total : Nat
  ok : Nat
  failed : Nat
  skipped : Nat
  bytes : Nat
deriving DecidableEq, Repr

def addStats (a b : ImgStats) : ImgStats :=
  ⟨a.total + b.total, a.ok + b.ok, a.failed + b.failed, a.skipped + b.skipped,
   a.bytes + b.bytes⟩

/-- One `sess.get` call seen through its effect: an exception
(connection error or bad HTTP status) or a body of the given byte size. -/
inductive ImgFetch where
  | err
  | ok (size : Nat)
deriving DecidableEq

/-- The per-image retry loop of `download_images` (wechat_extract.py lines
244-263): attempts `0 .. IMG_RETRY`; a body below `IMG_MIN_BYTES` raises and
is retried like any exception.  Returns the successful body size (if any)
and the number of `sess.get` network requests performed. -/
def tryDownload (o : Nat → ImgFetch) : Nat → Nat → Option Nat × Nat
  | _, 0 => (none, 0)
  | attempt, Nat.succ fuel =>
    match o attempt with
    | .err =>
      let r := tryDownload o (attempt + 1) fuel
      (r.1, r.2 + 1)
    | .ok n =>
      if n < IMG_MIN_BYTES then
        let r := tryDownload o (attempt + 1) fuel
        (r.1, r.2 + 1)
      else (some n, 1)

/-- Local asset filename: `f"img_{img_counter:03d}_{url_hash}{ext}"` where
`urlHash` models `hashlib.md5(src.encode()).hexdigest()[:8]` (an opaque
stable pure function of the source URL) and the extension comes from
`_img_ext(src)` called without a content type, as in the source. -/
def localImgName (urlHash : String → String) (counter : Nat) (src : String) : String :=
  "img_" ++ padZeros 3 counter ++ "_" ++ urlHash src ++ imgExt src ""

/-- `filepath.exists() and filepath.stat().st_size > 0` over the
association-list filesystem (first binding wins, as writes shadow). -/
def fsGet (fs : List (String × Nat)) (p : String) : Option Nat :=
  match fs.find? (fun e => e.1 == p) with
  | some e => some e.2
  | none => none

def fileOk (fs : List (String × Nat)) (p : String) : Bool :=
  match fsGet fs p with
  | some n => 0 < n
  | none => false

/-- `filepath.write_bytes(data)`: the new binding shadows any older one. -/
def fsSet (fs : List (String × Nat)) (p : String) (n : Nat) : List (String × Nat) :=
  (p, n) :: fs

/-- The outcome of one `download_images` run: the rewritten `src` attribute of
each image node in order, the stats dict, the filesystem after the run, and
the total number of network requests performed. -/
structure MediaRun where
  srcs : List String
  stats : ImgStats
  fs : List (String × Nat)
  reqs : Nat
deriving DecidableEq, Repr

/-- `download_images(content_soup, assets_dir, session)` (wechat_extract.py
lines 213-270), over the list of `src` attributes of the `<img>` nodes in
document order.  `oracle c a` is what the network returns for the image with
counter `c` on attempt `a`.  Images whose src is falsy or does not start
with `"http"` are passed through untouched; otherwise the deterministic
local filename is computed, an existing non-empty file short-circuits the
download (skip), and a download failure leaves the original URL in place. -/
def download_images (urlHash : String → String) (assetsDir : String)
    (oracle : Nat → Nat → ImgFetch) :
    Nat → List (String × Nat) → List String → MediaRun
  | _, fs, [] => ⟨[], ⟨0, 0, 0, 0, 0⟩, fs, 0⟩
  | counter, fs, src :: rest =>
    if strIsPrefixOf "http" src then
      let c := counter + 1
      let fname := localImgName urlHash c src
      let path := assetsDir ++ "/" ++ fname
      if fileOk fs path then
        let r := download_images urlHash assetsDir oracle c fs rest
        ⟨("assets/" ++ fname) :: r.srcs, addStats ⟨1, 1, 0, 1, 0⟩ r.stats, r.fs, r.reqs⟩
      else
        match tryDownload (oracle c) 0 (IMG_RETRY + 1) with
        | (some n, k) =>
          let r := download_images urlHash assetsDir oracle c (fsSet fs path n) rest
          ⟨("assets/" ++ fname) :: r.srcs, addStats ⟨1, 1, 0, 0, n⟩ r.stats, r.fs, r.reqs + k⟩
        | (none, k) =>
          let r := download_images urlHash assetsDir oracle c fs rest
          ⟨src :: r.srcs, addStats ⟨1, 0, 1, 0, 0⟩ r.stats, r.fs, r.reqs + k⟩
    else
      let r := download_images urlHash assetsDir oracle counter fs rest
      ⟨src :: r.srcs, r.stats, r.fs, r.reqs⟩

/-! ## Markdown post-pass model (wechat_extract.py: html_to_markdown) -/

/-- `re.sub(r'\n{3,}', '\n\n', md)`: scan the text keeping a pending count of
consecutive newlines; a maximal run of three or more newlines is emitted as
exactly two, shorter runs are emitted unchanged. -/
def collapseAux : List Char → Nat → List Char
  | [], n => List.replicate (if 3 ≤ n then 2 else n) '\n'
  | c :: cs, n =>
    if c = '\n' then collapseAux cs (n + 1)
    else List.replicate (if 3 ≤ n then 2 else n) '\n' ++ c :: collapseAux cs 0

def collapseBlankRuns (s : String) : String := String.mk (collapseAux s.data 0)

def isSpTab (c : Char) : Bool := c = ' ' || c = '\t'

/-- `re.sub(r'[ \t]+\n', '\n', md)`: spaces and tabs directly before a
newline are dropped; any other run of spaces/tabs is kept. -/
def stripTrailAux : List Char → List Char → List Char
  | pending, [] => pending.reverse
  | pending, c :: cs =>
    if isSpTab c then stripTrailAux (c :: pending) cs
    else if c = '\n' then '\n' :: stripTrailAux [] cs
    else pending.reverse ++ c :: stripTrailAux [] cs

def stripTrailingWs (s : String) : String := String.mk (stripTrailAux [] s.data)

/-- The optional metadata lines of the markdown header, in source order. -/
def mdMetaParts (author publish_time source_url : String) : List String :=
  (if author ≠ "" then ["作者: " ++ author] else []) ++
  (if publish_time ≠ "" then ["发布: " ++ publish_time] else []) ++
  (if source_url ≠ "" then ["来源: " ++ source_url] else [])

/-- `html_to_markdown` (wechat_extract.py lines 456-479) applied to the
already-rendered body `md` (the result of `_soup_to_markdown`): collapse
newline runs, strip trailing spaces/tabs before newlines, strip the ends,
then prepend the metadata header. -/
def html_to_markdown_body (md title author source_url publish_time : String) : String :=
  let cleaned := pyStrip (stripTrailingWs (collapseBlankRuns md))
  let metaParts := mdMetaParts author publish_time source_url
  let header := "# " ++ title ++ "\n\n" ++
    (if metaParts = [] then "" else String.intercalate "\n" metaParts ++ "\n") ++
    "\n---\n\n"
  header ++ cleaned

/-! ## Extractor boundary model (wechat_extract.py: extract_article)

The BeautifulSoup / regex view of the raw markup is abstracted into a
`WxDoc`: each field is the result of the corresponding signal probe
(`None` = probe found nothing).  `unescape` models `html.unescape` and
`formatDate` models `time.strftime("%Y-%m-%d", time.localtime(ts))`;
both are opaque pure functions.  The placement of try/except blocks in
`extract_article` is modelled by an `ExcOracle` saying which guarded stage
raises (and with what message), mirroring lines 496-586 of the source. -/

structure WxDoc where
  msgTitle : Option String
  titleH1 : Option String
  nickname : Option String
  nickLandmark : Option String
  ctEpoch : Option Nat
  sourceUrl : Option String
deriving DecidableEq

/-- `title.split("'")[0].split('"')[0]`: the prefix before the first quote. -/
def takeBeforeQuotes (s : String) : String :=
  String.mk (s.data.takeWhile fun c => c ≠ '\'' && c ≠ '"')

/-- `extract_title` (wechat_extract.py lines 49-58): the `var msg_title`
assignment signal first, then the `h1.rich_media_title` landmark, else
`"Untitled"`. -/
def extract_title (unescape : String → String) (d : WxDoc) : String :=
  match d.msgTitle with
  | some g => pyStrip (unescape (takeBeforeQuotes g))
  | none =>
    match d.titleH1 with
    | some t => t
    | none => "Untitled"

/-- `extract_author` (lines 61-70): `var nickname` signal, then the
`#js_name` / nickname landmark, else empty. -/
def extract_author (unescape : String → String) (d : WxDoc) : String :=
  match d.nickname with
  | some g => pyStrip (unescape g)
  | none =>
    match d.nickLandmark with
    | some t => t
    | none => ""

/-- `extract_publish_time` (lines 73-78): the `var ct` epoch converted to a
calendar date, else empty. -/
def extract_publish_time (formatDate : Nat → String) (d : WxDoc) : String :=
  match d.ctEpoch with
  | some ts => formatDate ts
  | none => ""

/-- `extract_source_url` (lines 81-85). -/
def extract_source_url (d : WxDoc) : String :=
  match d.sourceUrl with
  | some u => u
  | none => ""

/-- `safe_dirname(title, seq)` (lines 486-493): non-word characters become
underscores, truncate to 50, strip trailing underscores, fall back to
`"untitled"`, and prefix a zero-padded sequence number when `seq > 0`. -/
def safe_dirname (title : String) (seq : Nat) : String :=
  let mapped := title.data.map fun c => if pyWordChar c || c = '-' then c else '_'
  let stripped := ((mapped.take 50).reverse.dropWhile fun c => c = '_').reverse
  let safe := if stripped.isEmpty then "untitled" else String.mk stripped
  if 0 < seq then padZeros 4 seq ++ "_" ++ safe else safe

/-- Which guarded stage of `extract_article` raises, and with what message.
`none` everywhere means no exception anywhere (the directory-creation
call, which has no guard in the source, is idealised as succeeding). -/
structure ExcOracle where
  metaExc : Option String
  contentExc : Option String
  saveRawExc : Option String
  imagesExc : Option String
  htmlExc : Option String
  mdExc : Option String
deriving DecidableEq

def noExc : ExcOracle := ⟨none, none, none, none, none, none⟩

/-- The result dict of `extract_article`; `img_stats = none` models the
initial empty dict `{}`. -/
structure ExtractResult where
  title : String
  author : String
  publish_time : String
  source_url : String
  dir_name : String
  html_path : String
  md_path : String
  img_stats : Option ImgStats
  errors : List String
deriving DecidableEq

/-- `extract_article(raw_html, output_dir, seq, download_img, session)`
(wechat_extract.py lines 496-586).  Every stage that the source wraps in
`try/except` appends its diagnostic string and degrades exactly as the
source does; no branch escapes without producing a result. -/
def extract_article (unescape : String → String) (formatDate : Nat → String)
    (exc : ExcOracle) (d : WxDoc) (output_dir : String) (seq : Nat)
    (download_img : Bool) (imgStats : ImgStats) : ExtractResult :=
  let meta :=
    match exc.metaExc with
    | some e => ("Untitled", "", "", "", ["metadata extraction: " ++ e])
    | none =>
      (extract_title unescape d, extract_author unescape d,
       extract_publish_time formatDate d, extract_source_url d, ([] : List String))
  match meta with
  | (title, author, publish_time, source_url, errs0) =>
    match exc.contentExc with
    | some e =>
      ⟨title, author, publish_time, source_url, "", "", "", none,
       errs0 ++ ["content extraction: " ++ e]⟩
    | none =>
      let dir_name := safe_dirname title seq
      let articleDir := output_dir ++ "/" ++ dir_name
      let errs1 := errs0 ++
        (match exc.saveRawExc with
         | some e => ["save raw.html: " ++ e]
         | none => [])
      let imgPart :=
        if download_img then
          match exc.imagesExc with
          | some e => ((none : Option ImgStats), errs1 ++ ["image download: " ++ e])
          | none => (some imgStats, errs1)
        else (none, errs1)
      let htmlPart :=
        match exc.htmlExc with
        | some e => ("", imgPart.2 ++ ["build HTML: " ++ e])
        | none => (articleDir ++ "/article.html", imgPart.2)
      let mdPart :=
        match exc.mdExc with
        | some e => ("", htmlPart.2 ++ ["build Markdown: " ++ e])
        | none => (articleDir ++ "/article.md", htmlPart.2)
      ⟨title, author, publish_time, source_url, dir_name, htmlPart.1, mdPart.1,
       imgPart.1, mdPart.2⟩

/-! ## Concrete fetch scenarios -/

/-- A real content page: 1000 characters, no anti-bot marker. -/
def goodHtml : String := String.mk (List.replicate 1000 'a')

/-- An anti-bot interstitial: contains the marker in its prefix. -/
def antiHtml : String := "系统检测到环境异常,请稍后再试"

/-- Four anti-bot pages, then real content forever after. -/
def c2Outcomes : Nat → CdpOutcome := fun k => if k < 4 then .page antiHtml else .page goodHtml

/-- Three anti-bot pages, then real content. -/
def c2OutcomesB : Nat → CdpOutcome := fun k => if k < 3 then .page antiHtml else .page goodHtml

/-- Three transient timeouts, then real content. -/
def c3Outcomes : Nat → CdpOutcome := fun k => if k < 3 then .timeoutExc else .page goodHtml

lemma antiOutcome_eq (o : CdpOutcome) (h : antiOutcome o = true) :
    ∃ s, o = .page s ∧ antiBotPage s = true := by
  cases o with
  | page s => exact ⟨s, rfl, h⟩
  | procFail => exact absurd h (by decide)
  | timeoutExc => exact absurd h (by decide)
  | runExc => exact absurd h (by decide)

set_option maxRecDepth 100000 in
/-- Claim C2 is false on the code: four consecutive anti-bot pages exhaust the
attempt counter even though real content follows on the very next fetch,
while the same content after only three anti-bot pages succeeds — so the
anti-bot branch does consume an attempt. -/
theorem c2_antibot_counterexample :
    (download_raw_html_cdp c2Outcomes).1 = none ∧
    c2Outcomes 4 = .page goodHtml ∧
    antiBotPage goodHtml = false ∧ 1000 ≤ goodHtml.length ∧
    (download_raw_html_cdp c2OutcomesB).1 = some goodHtml := by
  refine ⟨by decide, by decide, by decide, by decide, by decide⟩

/-- Claim C2 (amended): an anti-bot page makes the loop pause for the fixed
rate-limit cooldown and retry, but the retry advances the shared attempt
counter; when every one of the `MAX_RETRIES + 1` attempts sees an anti-bot
page the fetch returns `none` after pausing the cooldown each time. -/
theorem c2_antibot_consumes_attempts (outcomes : Nat → CdpOutcome)
    (h : ∀ j, j < MAX_RETRIES + 1 → antiOutcome (outcomes j) = true) :
    download_raw_html_cdp outcomes =
      (none, List.replicate (MAX_RETRIES + 1) RATE_LIMIT_PAUSE) := by
  obtain ⟨s0, e0, a0⟩ := antiOutcome_eq _ (h 0 (by decide))
  obtain ⟨s1, e1, a1⟩ := antiOutcome_eq _ (h 1 (by decide))
  obtain ⟨s2, e2, a2⟩ := antiOutcome_eq _ (h 2 (by decide))
  obtain ⟨s3, e3, a3⟩ := antiOutcome_eq _ (h 3 (by decide))
  show fetchGo outcomes 0 4 = _
  simp [fetchGo, e0, e1, e2, e3, a0, a1, a2, a3, List.replicate]

/-- Witness for `c2_antibot_consumes_attempts` at a concrete input. -/
theorem c2_antibot_consumes_attempts_witness :
    download_raw_html_cdp (fun _ => .page antiHtml) =
      (none, List.replicate (MAX_RETRIES + 1) RATE_LIMIT_PAUSE) :=
  c2_antibot_consumes_attempts (fun _ => .page antiHtml) (by decide)

set_option maxRecDepth 100000 in
/-- Claim C3, evaluated at the failing input: three transient failures then
success does succeed within the cap, but the backoff sleeps are
`5, 10, 20` seconds (`BACKOFF_BASE * 2 ** attempt`), not the
`5, 15, 45` (`×3` per step) that the claim — and the code's own comment on
`BACKOFF_BASE` — prescribe; a fourth consecutive failure returns `none`
after the same three sleeps. -/
theorem c3_backoff_base_times_two :
    download_raw_html_cdp c3Outcomes = (some goodHtml, [5, 10, 20]) ∧
    download_raw_html_cdp (fun _ => .timeoutExc) = (none, [5, 10, 20]) ∧
    (download_raw_html_cdp c3Outcomes).2 ≠
      [BACKOFF_BASE, BACKOFF_BASE * 3, BACKOFF_BASE * 3 ^ 2] := by
  refine ⟨by decide, by decide, by decide⟩

/-! ## C4: work-queue construction -/

/-- Claim C4 is false on the code: a manifest record whose url is missing or
empty is excluded from the work queue even though its status is not
terminal-success — and it stays excluded even under the force flag. -/
theorem c4_workqueue_counterexample :
    toProcess [⟨1, "", "", "pending", "", [], "", ""⟩] false 0 = [] ∧
    toProcess [⟨1, "", "", "pending", "", [], "", ""⟩] true 0 = [] ∧
    (⟨1, "", "", "pending", "", [], "", ""⟩ : ArticleRecord).status ≠ "downloaded" ∧
    (⟨1, "", "", "pending", "", [], "", ""⟩ : ArticleRecord).status ≠ "extracted" := by
  refine ⟨by decide, by decide, by decide, by decide⟩

/-- Claim C4 (amended): the work queue is the subsequence of the manifest
consisting of the records with a non-empty url whose status is outside
{downloaded, extracted} (all records with a non-empty url when forced),
truncated to the first `limit` entries when `limit > 0`. -/
theorem c4_workqueue (articles : List ArticleRecord) (force : Bool) :
    (toProcess articles force 0).Sublist articles ∧
    (∀ r : ArticleRecord, r ∈ toProcess articles force 0 ↔
      r ∈ articles ∧ r.url ≠ "" ∧
        (force = true ∨ (r.status ≠ "downloaded" ∧ r.status ≠ "extracted"))) ∧
    (∀ limit : Int, 0 < limit →
      toProcess articles force limit = (toProcess articles force 0).take limit.toNat) ∧
    (∀ limit : Int, limit ≤ 0 → toProcess articles force limit = toProcess articles force 0) := by
  refine ⟨?_, ?_, ?_, ?_⟩
  · simp only [toProcess, if_neg (by omega : ¬ (0:Int) < 0)]
    exact List.filter_sublist articles
  · intro r
    simp [toProcess, List.mem_filter, bne_iff_ne, and_assoc]
  · intro limit hl
    simp only [toProcess, if_pos hl]
    norm_num
  · intro limit hl
    simp only [toProcess, if_neg (by omega : ¬ (0:Int) < limit)]
    norm_num

/-- Witness for `c4_workqueue` at a concrete manifest and limit. -/
theorem c4_workqueue_witness :
    toProcess [⟨1, "https://a", "", "pending", "", [], "", ""⟩,
               ⟨2, "https://b", "", "failed", "", [], "", ""⟩] false 1 =
      (toProcess [⟨1, "https://a", "", "pending", "", [], "", ""⟩,
                  ⟨2, "https://b", "", "failed", "", [], "", ""⟩] false 0).take (Int.toNat 1) :=
  (c4_workqueue _ false).2.2.1 1 (by decide)

/-! ## C8: retry command frame condition -/

/-- Claim C8: the retry command resets exactly the failed records to pending
with empty errors and leaves every other record, and every other field of a
reset record, unchanged. -/
theorem c8_retry_frame (articles : List ArticleRecord) :
    (cmd_retry_reset articles).length = articles.length ∧
    ∀ (i : Nat) (a : ArticleRecord), articles[i]? = some a →
      ∃ b, (cmd_retry_reset articles)[i]? = some b ∧
        (a.status = "failed" →
          b.status = "pending" ∧ b.errors = [] ∧ b.url = a.url ∧ b.seq = a.seq ∧
          b.title = a.title ∧ b.dir_name = a.dir_name ∧ b.author = a.author ∧
          b.publish_time = a.publish_time) ∧
        (a.status ≠ "failed" → b = a) := by
  refine ⟨List.length_map _ _, ?_⟩
  intro i a h
  refine ⟨if a.status = "failed" then { a with status := "pending", errors := [] } else a,
    ?_, ?_, ?_⟩
  · simp [cmd_retry_reset, List.getElem?_map, h]
  · intro hf
    simp [hf]
  · intro hf
    simp [hf]

/-- Witness for `c8_retry_frame` at a concrete manifest. -/
theorem c8_retry_frame_witness :
    ([⟨1, "https://a", "t", "failed", "d", ["boom"], "au", "2024-01-01"⟩] :
        List ArticleRecord)[0]? = some ⟨1, "https://a", "t", "failed", "d", ["boom"], "au", "2024-01-01"⟩ ∧
    ∃ b, (cmd_retry_reset [⟨1, "https://a", "t", "failed", "d", ["boom"], "au", "2024-01-01"⟩])[0]? = some b ∧
      ((⟨1, "https://a", "t", "failed", "d", ["boom"], "au", "2024-01-01"⟩ : ArticleRecord).status = "failed" →
        b.status = "pending" ∧ b.errors = [] ∧ b.url = "https://a" ∧ b.seq = 1 ∧
        b.title = "t" ∧ b.dir_name = "d" ∧ b.author = "au" ∧
        b.publish_time = "2024-01-01") ∧
      ((⟨1, "https://a", "t", "failed", "d", ["boom"], "au", "2024-01-01"⟩ : ArticleRecord).status ≠ "failed" →
        b = ⟨1, "https://a", "t", "failed", "d", ["boom"], "au", "2024-01-01"⟩) :=
  ⟨rfl, (c8_retry_frame [⟨1, "https://a", "t", "failed", "d", ["boom"], "au", "2024-01-01"⟩]).2 0 _ rfl⟩

/-! ## C1: manifest merge -/

lemma lookupFold_acc (u : String) (l : List ArticleRecord) (acc : Option ArticleRecord) :
    l.foldl (fun acc a => if a.url ≠ "" ∧ a.url = u then some a else acc) acc =
      match lookupByUrl l u with
      | some r => some r
      | none => acc := by
  induction l generalizing acc with
  | nil => simp [lookupByUrl]
  | cons a l ih =>
    show l.foldl _ (if a.url ≠ "" ∧ a.url = u then some a else acc) = _
    rw [ih]
    have hc : lookupByUrl (a :: l) u =
        l.foldl (fun acc a => if a.url ≠ "" ∧ a.url = u then some a else acc)
          (if a.url ≠ "" ∧ a.url = u then some a else none) := rfl
    rw [hc, ih]
    cases lookupByUrl l u with
    | some r => simp
    | none =>
      by_cases h : a.url ≠ "" ∧ a.url = u
      · rw [if_pos h, if_pos h]
      · rw [if_neg h, if_neg h]

lemma lookupByUrl_cons (e : ArticleRecord) (l : List ArticleRecord) (u : String) :
    lookupByUrl (e :: l) u =
      match lookupByUrl l u with
      | some r => some r
      | none => if e.url ≠ "" ∧ e.url = u then some e else none := by
  show l.foldl _ (if e.url ≠ "" ∧ e.url = u then some e else none) = _
  rw [lookupFold_acc]

lemma lookupByUrl_eq_some (l : List ArticleRecord) (u : String) (e : ArticleRecord)
    (h : lookupByUrl l u = some e) : e.url = u ∧ e.url ≠ "" := by
  induction l with
  | nil => simp [lookupByUrl] at h
  | cons a l ih =>
    rw [lookupByUrl_cons] at h
    cases hl : lookupByUrl l u with
    | some r => rw [hl] at h; exact ih (hl.trans h)
    | none =>
      rw [hl] at h
      by_cases hc : a.url ≠ "" ∧ a.url = u
      · rw [if_pos hc] at h
        cases h
        exact ⟨hc.2, hc.1⟩
      · rw [if_neg hc] at h
        cases h

lemma lookupByUrl_empty (l : List ArticleRecord) : lookupByUrl l "" = none := by
  cases h : lookupByUrl l "" with
  | none => rfl
  | some e =>
    obtain ⟨h1, h2⟩ := lookupByUrl_eq_some l "" e h
    exact absurd h1 h2

lemma mkEntry_url (existing : List ArticleRecord) (idx : Nat) (u : String) :
    (mkEntry existing idx u).url = u := by
  unfold mkEntry
  cases h : lookupByUrl existing u with
  | some e => exact (lookupByUrl_eq_some existing u e h).1
  | none => rfl

lemma mkEntry_seq (existing : List ArticleRecord) (idx : Nat) (u : String) :
    (mkEntry existing idx u).seq = idx + 1 := by
  unfold mkEntry
  cases lookupByUrl existing u <;> rfl

lemma mkEntry_of_lookup_some (existing : List ArticleRecord) (idx : Nat) (u : String)
    (r : ArticleRecord) (h : lookupByUrl existing u = some r) :
    mkEntry existing idx u = { r with seq := idx + 1 } := by
  unfold mkEntry
  rw [h]

lemma mkEntry_of_lookup_none (existing : List ArticleRecord) (idx : Nat) (u : String)
    (h : lookupByUrl existing u = none) :
    mkEntry existing idx u = freshRecord (idx + 1) u := by
  unfold mkEntry
  rw [h]

lemma seq_update_self (r : ArticleRecord) (n : Nat) (h : r.seq = n) :
    ({ r with seq := n } : ArticleRecord) = r := by
  cases r
  simp_all

lemma buildFrom_length (existing : List ArticleRecord) (urls : List String) (n : Nat) :
    (buildFrom existing n urls).length = urls.length := by
  induction urls generalizing n with
  | nil => rfl
  | cons u rest ih => simp [buildFrom, ih]

lemma buildFrom_getElem (existing : List ArticleRecord) (urls : List String)
    (n i : Nat) (u : String) (h : urls[i]? = some u) :
    (buildFrom existing n urls)[i]? = some (mkEntry existing (n + i) u) := by
  induction urls generalizing n i with
  | nil => simp at h
  | cons u0 rest ih =>
    cases i with
    | zero =>
      simp at h
      simp [buildFrom, h]
    | succ i =>
      simp at h
      have := ih (n + 1) i h
      simpa [buildFrom, Nat.add_assoc, Nat.add_comm 1 i] using this

lemma lookupByUrl_buildFrom_not_mem (existing : List ArticleRecord) (urls : List String)
    (n : Nat) (u : String) (h : u ∉ urls) :
    lookupByUrl (buildFrom existing n urls) u = none := by
  induction urls generalizing n with
  | nil => rfl
  | cons u0 rest ih =>
    have hne : u0 ≠ u := fun he => h (he ▸ List.mem_cons_self u0 rest)
    have hrest : u ∉ rest := fun hm => h (List.mem_cons_of_mem u0 hm)
    rw [buildFrom, lookupByUrl_cons, ih (n + 1) hrest]
    rw [if_neg]
    intro hc
    exact hne ((mkEntry_url existing n u0) ▸ hc.2)

lemma lookupByUrl_buildFrom (existing : List ArticleRecord) (urls : List String)
    (hnd : urls.Nodup) (n i : Nat) (u : String) (hu : urls[i]? = some u) (hne : u ≠ "") :
    lookupByUrl (buildFrom existing n urls) u = some (mkEntry existing (n + i) u) := by
  induction urls generalizing n i with
  | nil => simp at hu
  | cons u0 rest ih =>
    obtain ⟨hnotin, hndr⟩ := List.nodup_cons.mp hnd
    cases i with
    | zero =>
      simp at hu
      subst hu
      rw [buildFrom, lookupByUrl_cons, lookupByUrl_buildFrom_not_mem existing rest (n + 1) _ hnotin]
      rw [if_pos ⟨by rw [mkEntry_url]; exact hne, mkEntry_url _ _ _⟩]
      simp
    | succ i =>
      simp at hu
      rw [buildFrom, lookupByUrl_cons, ih hndr (n + 1) i hu]
      simp [Nat.add_assoc, Nat.add_comm 1 i]

lemma buildFrom_congr (existA existB : List ArticleRecord) (urls : List String) (n : Nat)
    (h : ∀ i u, urls[i]? = some u → mkEntry existA (n + i) u = mkEntry existB (n + i) u) :
    buildFrom existA n urls = buildFrom existB n urls := by
  induction urls generalizing n with
  | nil => rfl
  | cons u0 rest ih =>
    have h0 := h 0 u0 (by simp)
    rw [buildFrom, buildFrom, Nat.add_zero] at *
    rw [h0, ih (n + 1)]
    intro i u hu
    have := h (i + 1) u (by simpa using hu)
    simpa [Nat.add_assoc, Nat.add_comm 1 i] using this

/-- Claim C1: merging a deduplicated URL list into an existing manifest yields
one record per URL in list order; a URL already present keeps its record
with only the sequence number overwritten to its 1-based position, a new URL
gets a fresh pending record with empty errors; and the rebuild is
idempotent. -/
theorem c1_manifest_merge (urls : List String) (existing : List ArticleRecord)
    (hnd : urls.Nodup) :
    (build_manifest_from_urls urls existing).length = urls.length ∧
    (∀ (i : Nat) (u : String), urls[i]? = some u →
      ∃ r, (build_manifest_from_urls urls existing)[i]? = some r ∧
        r.url = u ∧ r.seq = i + 1 ∧
        (∀ e, lookupByUrl existing u = some e → r = { e with seq := i + 1 }) ∧
        (lookupByUrl existing u = none →
          r.status = "pending" ∧ r.errors = [] ∧ r.title = "" ∧ r.dir_name = "")) ∧
    build_manifest_from_urls urls (build_manifest_from_urls urls existing) =
      build_manifest_from_urls urls existing := by
  refine ⟨buildFrom_length existing urls 0, ?_, ?_⟩
  · intro i u hu
    refine ⟨mkEntry existing i u, ?_, mkEntry_url existing i u, mkEntry_seq existing i u, ?_, ?_⟩
    · simpa using buildFrom_getElem existing urls 0 i u hu
    · intro e he
      exact mkEntry_of_lookup_some existing i u e he
    · intro he
      rw [mkEntry_of_lookup_none existing i u he]
      exact ⟨rfl, rfl, rfl, rfl⟩
  · unfold build_manifest_from_urls
    apply buildFrom_congr
    intro i u hu
    rw [Nat.zero_add]
    by_cases hne : u = ""
    · subst hne
      rw [mkEntry_of_lookup_none _ i "" (lookupByUrl_empty _),
        mkEntry_of_lookup_none existing i "" (lookupByUrl_empty existing)]
    · have key := lookupByUrl_buildFrom existing urls hnd 0 i u hu hne
      rw [Nat.zero_add] at key
      rw [mkEntry_of_lookup_some _ i u _ key]
      exact seq_update_self _ _ (mkEntry_seq existing i u)

/-- Witness for `c1_manifest_merge`: idempotence at a concrete URL list and
manifest. -/
theorem c1_manifest_merge_witness :
    build_manifest_from_urls ["https://a", "https://b"]
        (build_manifest_from_urls ["https://a", "https://b"]
          [⟨5, "https://b", "T", "extracted", "d", [], "au", "2024"⟩]) =
      build_manifest_from_urls ["https://a", "https://b"]
        [⟨5, "https://b", "T", "extracted", "d", [], "au", "2024"⟩] :=
  (c1_manifest_merge ["https://a", "https://b"]
    [⟨5, "https://b", "T", "extracted", "d", [], "au", "2024"⟩] (by decide)).2.2

/-! ## C9: markdown post-pass -/

/-- A body split into an initial newline run and alternating text/newline
chunks; `segFlatten` is the corresponding concrete string. -/
def segFlatten (leading : Nat) (chunks : List (String × Nat)) : String :=
  String.mk (List.replicate leading '\n' ++
    (chunks.map fun p => p.1.data ++ List.replicate p.2 '\n').flatten)

/-- How `re.sub(r'\n{3,}', '\n\n', _)` transforms one maximal newline run. -/
def capRun (n : Nat) : Nat := if 3 ≤ n then 2 else n

/-- No space or tab directly before a newline anywhere in the text. -/
def noTrailSp (l : List Char) : Prop :=
  ∀ i : Nat, (l[i]? = some ' ' ∨ l[i]? = some '\t') → l[i + 1]? ≠ some '\n'

lemma collapseAux_replicate (k : Nat) (l : List Char) (n : Nat) :
    collapseAux (List.replicate k '\n' ++ l) n = collapseAux l (n + k) := by
  induction k generalizing n with
  | zero => simp
  | succ k ih =>
    rw [List.replicate_succ, List.cons_append]
    show collapseAux ('\n' :: (List.replicate k '\n' ++ l)) n = _
    rw [collapseAux, if_pos rfl, ih]
    congr 1
    omega

lemma collapseAux_text : ∀ (t l : List Char) (n : Nat), t ≠ [] → (∀ c ∈ t, c ≠ '\n') →
    collapseAux (t ++ l) n = List.replicate (capRun n) '\n' ++ (t ++ collapseAux l 0)
  | [], _, _, ht, _ => absurd rfl ht
  | c :: t, l, n, _, hnl => by
    have hc : c ≠ '\n' := hnl c (List.mem_cons_self c t)
    rw [List.cons_append, collapseAux, if_neg hc]
    cases ht : t with
    | nil =>
      subst ht
      simp [capRun]
    | cons c2 t2 =>
      rw [← ht, collapseAux_text t l 0 (by rw [ht]; exact List.cons_ne_nil c2 t2)
        (fun c' h' => hnl c' (List.mem_cons_of_mem c h'))]
      simp [capRun]

lemma collapseAux_chunks : ∀ (chunks : List (String × Nat)) (n : Nat),
    (∀ p ∈ chunks, p.1 ≠ "" ∧ ∀ c ∈ p.1.data, c ≠ '\n') →
    collapseAux ((chunks.map fun p => p.1.data ++ List.replicate p.2 '\n').flatten) n =
      List.replicate (capRun n) '\n' ++
        ((chunks.map fun p => p.1.data ++ List.replicate (capRun p.2) '\n').flatten)
  | [], n, _ => by simp [collapseAux, capRun]
  | (t, k) :: rest, n, h => by
    have h0 := h (t, k) (List.mem_cons_self _ _)
    have ht : t.data ≠ [] := by
      intro hd
      apply h0.1
      cases t
      simp_all
    rw [List.map_cons, List.flatten_cons, List.append_assoc, collapseAux_text t.data _ n ht h0.2,
      collapseAux_replicate k _ 0, Nat.zero_add,
      collapseAux_chunks rest k (fun p hp => h p (List.mem_cons_of_mem _ hp))]
    simp

lemma spTab_ne_nl (c : Char) (h : isSpTab c = true) : c ≠ '\n' := by
  intro hn
  subst hn
  simp [isSpTab] at h

lemma noTrailSp_cons (c : Char) (l : List Char) (h : noTrailSp l)
    (hc : isSpTab c = true → l.head? ≠ some '\n') : noTrailSp (c :: l) := by
  intro i hi
  cases i with
  | zero =>
    have hsp : isSpTab c = true := by
      rcases hi with h' | h' <;> simp at h' <;> simp [h', isSpTab]
    have := hc hsp
    cases l with
    | nil => simp
    | cons d l2 => simpa [List.head?] using this
  | succ i =>
    have := h i (by simpa using hi)
    simpa using this

lemma noTrailSp_of_no_nl (l : List Char) (h : ∀ c ∈ l, c ≠ '\n') : noTrailSp l := by
  intro i hi hc
  obtain ⟨hlt, he⟩ := List.getElem?_eq_some.mp hc
  exact h '\n' (he ▸ List.getElem_mem hlt) rfl

lemma noTrailSp_append_pend (P : List Char) (x : Char) (L : List Char)
    (hP : ∀ c ∈ P, isSpTab c = true) (hx1 : isSpTab x = false) (hx2 : x ≠ '\n')
    (hL : noTrailSp L) : noTrailSp (P ++ x :: L) := by
  induction P with
  | nil =>
    simp only [List.nil_append]
    exact noTrailSp_cons x L hL (fun h => by rw [hx1] at h; cases h)
  | cons c P ih =>
    rw [List.cons_append]
    apply noTrailSp_cons
    · exact ih fun c' h' => hP c' (List.mem_cons_of_mem _ h')
    · intro _
      cases P with
      | nil => simpa using hx2
      | cons c2 P2 => simpa using spTab_ne_nl c2 (hP c2 (by simp))

lemma stripTrailAux_noTrail : ∀ (l pending : List Char),
    (∀ c ∈ pending, isSpTab c = true) → noTrailSp (stripTrailAux pending l)
  | [], pending, hp => by
    rw [stripTrailAux]
    exact noTrailSp_of_no_nl _ fun c hc => spTab_ne_nl c (hp c (List.mem_reverse.mp hc))
  | c :: cs, pending, hp => by
    rw [stripTrailAux]
    by_cases h1 : isSpTab c = true
    · rw [if_pos h1]
      refine stripTrailAux_noTrail cs (c :: pending) ?_
      intro c' h'
      rcases List.mem_cons.mp h' with rfl | h'
      · exact h1
      · exact hp _ h'
    · have h1f : isSpTab c = false := by
        cases hb : isSpTab c
        · rfl
        · exact absurd hb h1
      rw [if_neg h1]
      by_cases h2 : c = '\n'
      · rw [if_pos h2]
        refine noTrailSp_cons _ _ (stripTrailAux_noTrail cs [] (by simp)) ?_
        intro hsp
        exact absurd hsp (by decide)
      · rw [if_neg h2]
        exact noTrailSp_append_pend pending.reverse c _
          (fun c' h' => hp c' (List.mem_reverse.mp h')) h1f h2
          (stripTrailAux_noTrail cs [] (by simp))

/-- Claim C9 is false as stated: the rendered body `"a\n\n\nb"` holds a run of
two consecutive blank lines (three newlines) — fewer than three blank
lines — yet the post-pass collapses it to a single blank line instead of
preserving it. -/
theorem c9_markdown_counterexample :
    html_to_markdown_body "a\n\n\nb" "t" "" "" "" = "# t\n\n\n---\n\na\n\nb" ∧
    html_to_markdown_body "a\n\n\nb" "t" "" "" "" ≠ "# t\n\n\n---\n\na\n\n\nb" := by
  refine ⟨by decide, by decide⟩

/-- Claim C9 (amended): the post-pass rewrites every maximal run of three or
more newlines (two or more consecutive blank lines) to exactly two newlines
(one blank line) and keeps shorter runs; it removes spaces and tabs standing
directly before a newline; and the output is the metadata header followed by
the cleaned, stripped body. -/
theorem c9_markdown_post (leading : Nat) (chunks : List (String × Nat))
    (h : ∀ p ∈ chunks, p.1 ≠ "" ∧ ∀ c ∈ p.1.data, c ≠ '\n') :
    collapseBlankRuns (segFlatten leading chunks) =
      segFlatten (capRun leading) (chunks.map fun p => (p.1, capRun p.2)) ∧
    (∀ s : String, noTrailSp (stripTrailingWs s).data) ∧
    (∀ md title author source_url publish_time : String,
      html_to_markdown_body md title author source_url publish_time =
        ("# " ++ title ++ "\n\n" ++
          (if mdMetaParts author publish_time source_url = [] then ""
           else String.intercalate "\n" (mdMetaParts author publish_time source_url) ++ "\n") ++
          "\n---\n\n") ++ pyStrip (stripTrailingWs (collapseBlankRuns md))) := by
  refine ⟨?_, ?_, ?_⟩
  · show String.mk (collapseAux (List.replicate leading '\n' ++ _) 0) = _
    rw [collapseAux_replicate leading _ 0, Nat.zero_add, collapseAux_chunks chunks leading h]
    simp only [segFlatten, List.map_map]
    rfl
  · intro s
    exact stripTrailAux_noTrail s.data [] (by simp)
  · intro md title author source_url publish_time
    rfl

/-- Witness for `c9_markdown_post` at a concrete segmented body. -/
theorem c9_markdown_post_witness :
    collapseBlankRuns (segFlatten 0 [("a", 3), ("b", 1)]) =
      segFlatten (capRun 0) ([("a", 3), ("b", 1)].map fun p => (p.1, capRun p.2)) :=
  (c9_markdown_post 0 [("a", 3), ("b", 1)] (by decide)).1

/-! ## C5: extractor error boundary -/

lemma append_ne_empty_right (a b : String) (hb : b.data ≠ []) : a ++ b ≠ "" := by
  intro h
  have hd : (a ++ b).data = [] := by rw [h]
  rw [String.data_append] at hd
  exact hb (List.append_eq_nil.mp hd).2

/-- A parsed page with no metadata signal, no landmark and no container. -/
def emptyDoc : WxDoc := ⟨none, none, none, none, none, none⟩

/-- Claim C5 is false as stated: markup with no title signal or landmark (and
no content container) is one of the claim's structural failures, yet
`extract_article` accumulates no error note for it and produces full output
(non-empty html path), not metadata-only defaults. -/
theorem c5_extract_counterexample :
    (extract_article id (fun _ => "") noExc emptyDoc "out" 0 false ⟨0, 0, 0, 0, 0⟩).errors
        = [] ∧
    (extract_article id (fun _ => "") noExc emptyDoc "out" 0 false ⟨0, 0, 0, 0, 0⟩).title
        = "Untitled" ∧
    (extract_article id (fun _ => "") noExc emptyDoc "out" 0 false ⟨0, 0, 0, 0, 0⟩).html_path
        = "out/Untitled/article.html" := by
  refine ⟨by decide, by decide, by decide⟩

/-- Claim C5 (amended): `extract_article` always yields a result record — every
guarded stage that raises degrades to a recorded note.  A metadata exception
yields the defaults title `"Untitled"`, empty author and date plus a
`metadata extraction:` note; a content-parsing exception yields a
metadata-only result with a `content extraction:` note; with no exception
anywhere the error list stays empty, and a missing title signal and landmark
silently defaults the title to `"Untitled"` while processing continues. -/
theorem c5_extract_boundary (unescape : String → String) (formatDate : Nat → String)
    (exc : ExcOracle) (d : WxDoc) (output_dir : String) (seq : Nat)
    (download_img : Bool) (imgStats : ImgStats) (r : ExtractResult)
    (hr : extract_article unescape formatDate exc d output_dir seq download_img imgStats = r) :
    (∀ e, exc.metaExc = some e →
      r.title = "Untitled" ∧ r.author = "" ∧ r.publish_time = "" ∧
        ("metadata extraction: " ++ e) ∈ r.errors) ∧
    (exc.metaExc = none → ∀ e, exc.contentExc = some e →
      r.errors = ["content extraction: " ++ e] ∧ r.dir_name = "" ∧
        r.html_path = "" ∧ r.md_path = "") ∧
    (exc = noExc → r.errors = []) ∧
    (exc = noExc → d.msgTitle = none → d.titleH1 = none →
      r.title = "Untitled" ∧ r.html_path ≠ "") := by
  subst hr
  refine ⟨?_, ?_, ?_, ?_⟩
  · intro e he
    cases hc : exc.contentExc with
    | some e2 => simp [extract_article, he, hc]
    | none =>
      cases hs : exc.saveRawExc <;> cases download_img <;> cases hi : exc.imagesExc <;>
        cases hh : exc.htmlExc <;> cases hd : exc.mdExc <;>
        simp [extract_article, he, hc, hs, hi, hh, hd]
  · intro hm e hc
    simp [extract_article, hm, hc]
  · intro he
    subst he
    cases download_img <;> simp [extract_article, noExc]
  · intro he h1 h2
    subst he
    cases download_img <;>
      simp [extract_article, noExc, extract_title, h1, h2] <;>
      exact append_ne_empty_right _ "/article.html" (by decide)

/-- Witness for `c5_extract_boundary`: a metadata exception at a concrete
input produces the defaults and the note. -/
theorem c5_extract_boundary_witness :
    (extract_article id (fun _ => "2024-01-01") ⟨some "boom", none, none, none, none, none⟩
        emptyDoc "out" 1 true ⟨1, 1, 0, 0, 200⟩).title = "Untitled" ∧
    (extract_article id (fun _ => "2024-01-01") ⟨some "boom", none, none, none, none, none⟩
        emptyDoc "out" 1 true ⟨1, 1, 0, 0, 200⟩).author = "" ∧
    (extract_article id (fun _ => "2024-01-01") ⟨some "boom", none, none, none, none, none⟩
        emptyDoc "out" 1 true ⟨1, 1, 0, 0, 200⟩).publish_time = "" ∧
    ("metadata extraction: " ++ "boom") ∈
      (extract_article id (fun _ => "2024-01-01") ⟨some "boom", none, none, none, none, none⟩
        emptyDoc "out" 1 true ⟨1, 1, 0, 0, 200⟩).errors :=
  (c5_extract_boundary id (fun _ => "2024-01-01")
    ⟨some "boom", none, none, none, none, none⟩ emptyDoc "out" 1 true
    ⟨1, 1, 0, 0, 200⟩ _ rfl).1 "boom" rfl

/-! ## Media pipeline lemmas -/

lemma tryDownload_fst_some_ge : ∀ (o : Nat → ImgFetch) (a f n : Nat),
    (tryDownload o a f).1 = some n → IMG_MIN_BYTES ≤ n
  | o, a, 0, n, h => by simp [tryDownload] at h
  | o, a, f + 1, n, h => by
    rw [tryDownload] at h
    cases ho : o a with
    | err =>
      simp only [ho] at h
      exact tryDownload_fst_some_ge o (a + 1) f n h
    | ok m =>
      by_cases hm : m < IMG_MIN_BYTES
      · simp only [ho, if_pos hm] at h
        exact tryDownload_fst_some_ge o (a + 1) f n h
      · simp only [ho, if_neg hm] at h
        cases h
        omega

lemma fileOk_cons_self (fs : List (String × Nat)) (p : String) (n : Nat)
    (hn : 0 < n) : fileOk ((p, n) :: fs) p = true := by
  simp [fileOk, fsGet, List.find?, hn]

lemma fileOk_mono (w fs : List (String × Nat)) (p : String)
    (hw : ∀ e ∈ w, IMG_MIN_BYTES ≤ e.2) (h : fileOk fs p = true) :
    fileOk (w ++ fs) p = true := by
  induction w with
  | nil => exact h
  | cons e w ih =>
    have hrec := ih fun e' h' => hw e' (List.mem_cons_of_mem _ h')
    by_cases he : (e.1 == p) = true
    · have h2 := hw e (List.mem_cons_self _ _)
      have hpos : 0 < e.2 := by
        have h100 : IMG_MIN_BYTES = 100 := rfl
        omega
      rw [List.cons_append]
      simp [fileOk, fsGet, List.find?_cons, he, hpos]
    · have he2 : (e.1 == p) = false := by simpa using he
      rw [List.cons_append]
      have heq : fileOk (e :: (w ++ fs)) p = fileOk (w ++ fs) p := by
        simp only [fileOk, fsGet, List.find?_cons, he2]
      rw [heq]
      exact hrec

lemma download_images_fs_ext (uh : String → String) (ad : String)
    (o : Nat → Nat → ImgFetch) : ∀ (imgs : List String) (c : Nat) (fs : List (String × Nat)),
    ∃ w, (download_images uh ad o c fs imgs).fs = w ++ fs ∧ ∀ e ∈ w, IMG_MIN_BYTES ≤ e.2
  | [], c, fs => ⟨[], rfl, by simp⟩
  | src :: rest, c, fs => by
    by_cases hh : (strIsPrefixOf "http" src) = true
    · by_cases hok : fileOk fs (ad ++ "/" ++ localImgName uh (c + 1) src) = true
      · obtain ⟨w, hw1, hw2⟩ := download_images_fs_ext uh ad o rest (c + 1) fs
        exact ⟨w, by simp [download_images, hh, hok, hw1], hw2⟩
      · rcases htd : tryDownload (o (c + 1)) 0 (IMG_RETRY + 1) with ⟨sn, k⟩
        cases sn with
        | some n =>
          obtain ⟨w, hw1, hw2⟩ := download_images_fs_ext uh ad o rest (c + 1)
            (fsSet fs (ad ++ "/" ++ localImgName uh (c + 1) src) n)
          refine ⟨w ++ [(ad ++ "/" ++ localImgName uh (c + 1) src, n)], ?_, ?_⟩
          · have hw1b : (download_images uh ad o (c + 1)
                ((ad ++ "/" ++ localImgName uh (c + 1) src, n) :: fs) rest).fs =
                w ++ (ad ++ "/" ++ localImgName uh (c + 1) src, n) :: fs := by
              simpa [fsSet] using hw1
            simp [download_images, hh, hok, htd, hw1b, fsSet]
          · intro e he
            rcases List.mem_append.mp he with he | he
            · exact hw2 e he
            · have : e = (ad ++ "/" ++ localImgName uh (c + 1) src, n) := by simpa using he
              subst this
              exact tryDownload_fst_some_ge (o (c + 1)) 0 (IMG_RETRY + 1) n (by rw [htd])
        | none =>
          obtain ⟨w, hw1, hw2⟩ := download_images_fs_ext uh ad o rest (c + 1) fs
          exact ⟨w, by simp [download_images, hh, hok, htd, hw1], hw2⟩
    · obtain ⟨w, hw1, hw2⟩ := download_images_fs_ext uh ad o rest c fs
      exact ⟨w, by simp [download_images, hh, hw1], hw2⟩

lemma download_images_srcs_length (uh : String → String) (ad : String)
    (o : Nat → Nat → ImgFetch) : ∀ (imgs : List String) (c : Nat) (fs : List (String × Nat)),
    (download_images uh ad o c fs imgs).srcs.length = imgs.length
  | [], _, _ => rfl
  | src :: rest, c, fs => by
    by_cases hh : (strIsPrefixOf "http" src) = true
    · by_cases hok : fileOk fs (ad ++ "/" ++ localImgName uh (c + 1) src) = true
      · simp [download_images, hh, hok, download_images_srcs_length uh ad o rest (c + 1) fs]
      · rcases htd : tryDownload (o (c + 1)) 0 (IMG_RETRY + 1) with ⟨sn, k⟩
        cases sn with
        | some n =>
          simp [download_images, hh, hok, htd,
            download_images_srcs_length uh ad o rest (c + 1) _]
        | none =>
          simp [download_images, hh, hok, htd,
            download_images_srcs_length uh ad o rest (c + 1) fs]
    · simp [download_images, hh, download_images_srcs_length uh ad o rest c fs]

/-- Claim C10: for every tree and assets state the stats dict satisfies
`total = ok + failed` and `skipped ≤ ok`; moreover the bytes counter is
exactly the total size of the newly written image files (one per successful
non-skipped download, each at least the minimum byte threshold), so skipped
images contribute zero bytes.  All counters are naturals, hence
non-negative. -/
theorem c10_img_stats (uh : String → String) (ad : String) (o : Nat → Nat → ImgFetch) :
    ∀ (imgs : List String) (c : Nat) (fs : List (String × Nat)),
    (download_images uh ad o c fs imgs).stats.total =
        (download_images uh ad o c fs imgs).stats.ok +
          (download_images uh ad o c fs imgs).stats.failed ∧
    (download_images uh ad o c fs imgs).stats.skipped ≤
        (download_images uh ad o c fs imgs).stats.ok ∧
    ∃ w, (download_images uh ad o c fs imgs).fs = w ++ fs ∧
      (download_images uh ad o c fs imgs).stats.bytes = (w.map fun e => e.2).sum ∧
      w.length = (download_images uh ad o c fs imgs).stats.ok -
        (download_images uh ad o c fs imgs).stats.skipped ∧
      ∀ e ∈ w, IMG_MIN_BYTES ≤ e.2
  | [], c, fs => ⟨rfl, Nat.le_refl _, [], rfl, rfl, rfl, by simp⟩
  | src :: rest, c, fs => by
    by_cases hh : (strIsPrefixOf "http" src) = true
    · by_cases hok : fileOk fs (ad ++ "/" ++ localImgName uh (c + 1) src) = true
      · obtain ⟨iht, ihs, w, hfs, hb, hl, hw⟩ := c10_img_stats uh ad o rest (c + 1) fs
        refine ⟨?_, ?_, w, ?_, ?_, ?_, hw⟩ <;>
          simp [download_images, hh, hok, addStats, hfs, hb] <;> omega
      · rcases htd : tryDownload (o (c + 1)) 0 (IMG_RETRY + 1) with ⟨sn, k⟩
        cases sn with
        | some n =>
          obtain ⟨iht, ihs, w, hfs, hb, hl, hw⟩ := c10_img_stats uh ad o rest (c + 1)
            ((ad ++ "/" ++ localImgName uh (c + 1) src, n) :: fs)
          have hn : IMG_MIN_BYTES ≤ n :=
            tryDownload_fst_some_ge (o (c + 1)) 0 (IMG_RETRY + 1) n (by rw [htd])
          refine ⟨?_, ?_, w ++ [(ad ++ "/" ++ localImgName uh (c + 1) src, n)], ?_, ?_, ?_, ?_⟩
          · simp [download_images, hh, hok, htd, addStats, fsSet]
            omega
          · simp [download_images, hh, hok, htd, addStats, fsSet]
            omega
          · simp [download_images, hh, hok, htd, hfs, fsSet]
          · simp [download_images, hh, hok, htd, addStats, fsSet, hb]
            omega
          · simp [download_images, hh, hok, htd, addStats, fsSet, hl]
            omega
          · intro e he
            rcases List.mem_append.mp he with he | he
            · exact hw e he
            · have : e = (ad ++ "/" ++ localImgName uh (c + 1) src, n) := by simpa using he
              subst this
              exact hn
        | none =>
          obtain ⟨iht, ihs, w, hfs, hb, hl, hw⟩ := c10_img_stats uh ad o rest (c + 1) fs
          refine ⟨?_, ?_, w, ?_, ?_, ?_, hw⟩ <;>
            simp [download_images, hh, hok, htd, addStats, hfs, hb] <;> omega
    · obtain ⟨iht, ihs, w, hfs, hb, hl, hw⟩ := c10_img_stats uh ad o rest c fs
      refine ⟨?_, ?_, w, ?_, ?_, ?_, hw⟩ <;>
        simp [download_images, hh, hfs, hb] <;> omega

/-- Claim C7: a response body below the minimum byte threshold counts as a
failed fetch and consumes a retry like any exception; when all
`IMG_RETRY + 1` attempts fail, the image node keeps its original remote URL
and the failure counter is incremented; on success the node src becomes the
local relative path; and no per-image outcome stops the remaining images
from being processed (one output src per input node, always). -/
theorem c7_image_degradation (uh : String → String) (ad : String)
    (o : Nat → Nat → ImgFetch) (c : Nat) (fs : List (String × Nat))
    (src : String) (rest : List String) :
    (strIsPrefixOf "http" src = true →
      fileOk fs (ad ++ "/" ++ localImgName uh (c + 1) src) = false →
      ((tryDownload (o (c + 1)) 0 (IMG_RETRY + 1)).1 = none →
        (download_images uh ad o c fs (src :: rest)).srcs =
          src :: (download_images uh ad o (c + 1) fs rest).srcs ∧
        (download_images uh ad o c fs (src :: rest)).stats.failed =
          (download_images uh ad o (c + 1) fs rest).stats.failed + 1) ∧
      (∀ n k, tryDownload (o (c + 1)) 0 (IMG_RETRY + 1) = (some n, k) →
        (download_images uh ad o c fs (src :: rest)).srcs =
          ("assets/" ++ localImgName uh (c + 1) src) ::
            (download_images uh ad o (c + 1)
              ((ad ++ "/" ++ localImgName uh (c + 1) src, n) :: fs) rest).srcs ∧
        IMG_MIN_BYTES ≤ n)) ∧
    (∀ (o1 : Nat → ImgFetch) (a f m : Nat), o1 a = .ok m → m < IMG_MIN_BYTES →
      tryDownload o1 a (f + 1) =
        ((tryDownload o1 (a + 1) f).1, (tryDownload o1 (a + 1) f).2 + 1)) ∧
    (∀ imgs : List String, (download_images uh ad o c fs imgs).srcs.length = imgs.length) := by
  refine ⟨?_, ?_, ?_⟩
  · intro hh hok
    constructor
    · intro htd1
      rcases htd : tryDownload (o (c + 1)) 0 (IMG_RETRY + 1) with ⟨sn, k⟩
      rw [htd] at htd1
      cases sn with
      | some n => cases htd1
      | none =>
        have hok2 : ¬ fileOk fs (ad ++ "/" ++ localImgName uh (c + 1) src) = true := by
          rw [hok]
          exact Bool.false_ne_true
        constructor
        · simp [download_images, hh, hok2, htd]
        · simp [download_images, hh, hok2, htd, addStats]
          omega
    · intro n k htd
      have hok2 : ¬ fileOk fs (ad ++ "/" ++ localImgName uh (c + 1) src) = true := by
        rw [hok]
        exact Bool.false_ne_true
      have hn : IMG_MIN_BYTES ≤ n :=
        tryDownload_fst_some_ge (o (c + 1)) 0 (IMG_RETRY + 1) n (by rw [htd])
      refine ⟨?_, hn⟩
      simp [download_images, hh, hok2, htd, fsSet]
  · intro o1 a f m ho hm
    rw [tryDownload]
    simp only [ho, if_pos hm]
  · exact fun imgs => download_images_srcs_length uh ad o imgs c fs

/-- Witness for `c7_image_degradation`: a concrete image whose three fetch
attempts all fail keeps its remote URL and bumps the failure counter. -/
theorem c7_image_degradation_witness :
    (download_images (fun _ => "h12345678") "assets" (fun _ _ => .err) 0 []
        ["https://x/a.png"]).srcs =
      "https://x/a.png" ::
        (download_images (fun _ => "h12345678") "assets" (fun _ _ => .err) 1 [] []).srcs ∧
    (download_images (fun _ => "h12345678") "assets" (fun _ _ => .err) 0 []
        ["https://x/a.png"]).stats.failed =
      (download_images (fun _ => "h12345678") "assets" (fun _ _ => .err) 1 [] []).stats.failed + 1 :=
  ((c7_image_degradation (fun _ => "h12345678") "assets" (fun _ _ => .err) 0 []
    "https://x/a.png" []).1 (by decide) (by decide)).1 (by decide)

/-- Claim C6 is false as stated: an image whose three download attempts all
fail is retried by a second run over the same tree and assets directory —
three more network requests, not zero.  Also, a URL whose path has no known
extension but carries `wx_fmt=png` gets extension `.png` from the query
parameter, not the claimed `.jpg` default. -/
theorem c6_dedup_counterexample :
    (download_images (fun _ => "h2") "assets" (fun _ _ => .err) 0
        (download_images (fun _ => "h2") "assets" (fun _ _ => .err) 0 []
          ["https://x/a.png"]).fs
        ["https://x/a.png"]).reqs = 3 ∧
    (download_images (fun _ => "h2") "assets" (fun _ _ => .err) 0 []
        ["https://x/a.png"]).stats.failed = 1 ∧
    imgExt "https://mmbiz.qpic.cn/mmbiz/abc?wx_fmt=png" "" = ".png" := by
  refine ⟨by decide, by decide, by decide⟩

/-- Claim C6 (amended): local filenames are a deterministic function of the
source URL hash and the per-article counter, an existing non-empty file at
that path short-circuits the download, and hence a second run over the same
tree and assets state performs zero network requests, rewrites every node to
the identical local reference, and leaves the filesystem unchanged —
provided the first run had no failed image (failed images are re-fetched). -/
theorem c6_dedup (uh : String → String) (ad : String) (o o2 : Nat → Nat → ImgFetch) :
    ∀ (imgs : List String) (c : Nat) (fs : List (String × Nat)),
      (download_images uh ad o c fs imgs).stats.failed = 0 →
      (download_images uh ad o2 c (download_images uh ad o c fs imgs).fs imgs).reqs = 0 ∧
      (download_images uh ad o2 c (download_images uh ad o c fs imgs).fs imgs).srcs =
        (download_images uh ad o c fs imgs).srcs ∧
      (download_images uh ad o2 c (download_images uh ad o c fs imgs).fs imgs).fs =
        (download_images uh ad o c fs imgs).fs
  | [], c, fs, hf => by simp [download_images]
  | src :: rest, c, fs, hf => by
    by_cases hh : (strIsPrefixOf "http" src) = true
    · by_cases hok : fileOk fs (ad ++ "/" ++ localImgName uh (c + 1) src) = true
      · have hf2 : (download_images uh ad o (c + 1) fs rest).stats.failed = 0 := by
          revert hf
          simp [download_images, hh, hok, addStats]
        obtain ⟨w, hw1, hw2⟩ := download_images_fs_ext uh ad o rest (c + 1) fs
        have hok2 : fileOk (download_images uh ad o (c + 1) fs rest).fs
            (ad ++ "/" ++ localImgName uh (c + 1) src) = true := by
          rw [hw1]
          exact fileOk_mono w fs _ hw2 hok
        obtain ⟨ih1, ih2, ih3⟩ := c6_dedup uh ad o o2 rest (c + 1) fs hf2
        refine ⟨?_, ?_, ?_⟩ <;> simp [download_images, hh, hok, hok2, ih1, ih2, ih3]
      · rcases htd : tryDownload (o (c + 1)) 0 (IMG_RETRY + 1) with ⟨sn, k⟩
        cases sn with
        | some n =>
          have hn : IMG_MIN_BYTES ≤ n :=
            tryDownload_fst_some_ge (o (c + 1)) 0 (IMG_RETRY + 1) n (by rw [htd])
          have hpos : 0 < n := by
            have h100 : IMG_MIN_BYTES = 100 := rfl
            omega
          have hf2 : (download_images uh ad o (c + 1)
              ((ad ++ "/" ++ localImgName uh (c + 1) src, n) :: fs) rest).stats.failed = 0 := by
            revert hf
            simp [download_images, hh, hok, htd, addStats, fsSet]
          obtain ⟨w, hw1, hw2⟩ := download_images_fs_ext uh ad o rest (c + 1)
            ((ad ++ "/" ++ localImgName uh (c + 1) src, n) :: fs)
          have hok2 : fileOk (download_images uh ad o (c + 1)
              ((ad ++ "/" ++ localImgName uh (c + 1) src, n) :: fs) rest).fs
              (ad ++ "/" ++ localImgName uh (c + 1) src) = true := by
            rw [hw1]
            exact fileOk_mono w _ _ hw2 (fileOk_cons_self fs _ n hpos)
          obtain ⟨ih1, ih2, ih3⟩ := c6_dedup uh ad o o2 rest (c + 1)
            ((ad ++ "/" ++ localImgName uh (c + 1) src, n) :: fs) hf2
          refine ⟨?_, ?_, ?_⟩ <;>
            simp [download_images, hh, hok, htd, hok2, ih1, ih2, ih3, fsSet]
        | none =>
          exfalso
          revert hf
          simp [download_images, hh, hok, htd, addStats]
    · have hf2 : (download_images uh ad o c fs rest).stats.failed = 0 := by
        revert hf
        simp [download_images, hh]
      obtain ⟨ih1, ih2, ih3⟩ := c6_dedup uh ad o o2 rest c fs hf2
      refine ⟨?_, ?_, ?_⟩ <;> simp [download_images, hh, ih1, ih2, ih3]

/-- Witness for `c6_dedup`: one successfully downloaded image at a concrete
URL; the second run performs zero requests and keeps the local reference. -/
theorem c6_dedup_witness :
    (download_images (fun _ => "h3") "assets" (fun _ _ => .err) 0
        (download_images (fun _ => "h3") "assets" (fun _ _ => .ok 200) 0 []
          ["https://x/a.png"]).fs
        ["https://x/a.png"]).reqs = 0 ∧
    (download_images (fun _ => "h3") "assets" (fun _ _ => .err) 0
        (download_images (fun _ => "h3") "assets" (fun _ _ => .ok 200) 0 []
          ["https://x/a.png"]).fs
        ["https://x/a.png"]).srcs =
      (download_images (fun _ => "h3") "assets" (fun _ _ => .ok 200) 0 []
        ["https://x/a.png"]).srcs ∧
    (download_images (fun _ => "h3") "assets" (fun _ _ => .err) 0
        (download_images (fun _ => "h3") "assets" (fun _ _ => .ok 200) 0 []
          ["https://x/a.png"]).fs
        ["https://x/a.png"]).fs =
      (download_images (fun _ => "h3") "assets" (fun _ _ => .ok 200) 0 []
        ["https://x/a.png"]).fs :=
  c6_dedup (fun _ => "h3") "assets" (fun _ _ => .ok 200) (fun _ _ => .err)
    ["https://x/a.png"] 0 [] (by decide)
